import Mathlib

/-!
Verification development for the chamomile peer-to-peer overlay core.

The Rust sources embedded here are `src/src/server.rs` (dispatcher and
inbound-router tasks), `src/src/global.rs` (`Global` buffer helpers) and
`src/types/src/types.rs` (`PeerId` and its hex codecs).  The registry
(`PeerList`), the `Buffer` and the `delivery_split!` macro live in modules
that are not part of the sources at hand; those are modelled from the
specification and marked as such in their doc comments.

Machine integers are modelled as `Nat` (bytes are `Nat`s below 256; the
well-formedness predicates carry the bound where it matters).  Channel
senders are modelled as `Nat` identifiers.  Effectful code is embedded as
pure state transformers that return the ordered list of observable effects
(messages emitted upward, messages sent to session channels, buffer
insertions, spawned tasks, endpoint control frames).
-/

namespace Chamomile

/-- `PeerId` from `types.rs`: a 32-byte identity.  Bytes are `Nat`s; the
well-formedness predicate `PeerId.wf` records the length and byte bounds. -/
structure PeerId where
  bytes : List Nat
deriving DecidableEq

/-- Well-formedness of a `PeerId`: exactly 32 bytes, each below 256. -/
def PeerId.wf (p : PeerId) : Prop :=
  p.bytes.length = 32 ∧ ∀ b ∈ p.bytes, b < 256

instance (p : PeerId) : Decidable p.wf := by
  unfold PeerId.wf; infer_instance

/-- `PeerId::as_bytes` from `types.rs`: the raw byte view. -/
def PeerId.as_bytes (p : PeerId) : List Nat := p.bytes

/-- `PeerId::from_bytes` from `types.rs`: accepts exactly 32 bytes. -/
def PeerId.from_bytes (bs : List Nat) : Except String PeerId :=
  if bs.length ≠ 32 then .error "peer id bytes failure."
  else .ok ⟨bs⟩

/-- Value of a hex digit character, as `u8::from_str_radix` with radix 16
sees a single digit: `0`-`9`, `a`-`f` and `A`-`F`. -/
def hexDigitVal (c : Char) : Option Nat :=
  let n := c.toNat
  if 48 ≤ n ∧ n ≤ 57 then some (n - 48)
  else if 97 ≤ n ∧ n ≤ 102 then some (n - 87)
  else if 65 ≤ n ∧ n ≤ 70 then some (n - 55)
  else none

/-- `u8::from_str_radix(pair, 16)` on a two-character slice, as called by
`PeerId::from_hex`: an optional leading `+` sign is accepted (Rust's
unsigned `from_str_radix` allows it), followed by hex digits; two hex
digits cannot overflow a `u8`. -/
def parsePair (c1 c2 : Char) : Option Nat :=
  if c1 = '+' then hexDigitVal c2
  else match hexDigitVal c1, hexDigitVal c2 with
    | some a, some b => some (16 * a + b)
    | _, _ => none

/-- The loop body of `PeerId::from_hex`: parse the characters two at a
time, failing as soon as one pair is rejected. -/
def parsePairs : List Char → Option (List Nat)
  | [] => some []
  | [_] => none
  | c1 :: c2 :: rest =>
    match parsePair c1 c2, parsePairs rest with
    | some b, some bs => some (b :: bs)
    | _, _ => none

/-- `PeerId::from_hex` from `types.rs`: reject any input whose length is
not 64, then parse the 32 character pairs with `u8::from_str_radix`. -/
def PeerId.from_hex (s : List Char) : Except String PeerId :=
  if s.length ≠ 64 then .error "peer bytes failure."
  else match parsePairs s with
    | some bs => .ok ⟨bs⟩
    | none => .error "peer hex failure."

/-- Lowercase hex character of a nibble (`0`-`9` then `a`-`f`). -/
def hexNibble (n : Nat) : Char :=
  Char.ofNat (if n < 10 then 48 + n else 87 + n)

/-- One byte rendered by `format!` with the `02x?` spec: two lowercase hex
digits, high nibble first. -/
def hexByte (b : Nat) : List Char :=
  [hexNibble (b / 16), hexNibble (b % 16)]

/-- `PeerId::to_hex` from `types.rs`: each byte as two lowercase hex
digits, concatenated. -/
def PeerId.to_hex (p : PeerId) : List Char :=
  p.bytes.flatMap hexByte

/-- Whether an `Except` result is an error. -/
def isErr {α : Type} (r : Except String α) : Bool :=
  match r with
  | .error _ => true
  | .ok _ => false

/-- `Peer` from the types crate: identity, socket (abstracted to a `Nat`)
and whether the descriptor carries a usable address
(`Peer::effective_socket`). -/
structure Peer where
  id : PeerId
  socket : Nat
  socketEffective : Bool
deriving DecidableEq

/-- `DeliveryType` from the message module: which request kind a delivery
receipt acknowledges. -/
inductive DeliveryType
  | StableConnect
  | StableResult
  | Data
deriving DecidableEq

/-- The subset of `ReceiveMessage` variants the embedded dispatcher
branches emit upward. -/
inductive ReceiveMessage
  | Delivery (kind : DeliveryType) (tid : Nat) (success : Bool) (deliveryData : List Nat)
  | Data (source : PeerId) (data : List Nat)
  | NetworkLost
deriving DecidableEq

/-- `SessionMessage` variants sent into a session task's inbox. -/
inductive SessionMessage
  | Data (tid : Nat) (data : List Nat)
  | StableConnect (tid : Nat) (data : List Nat)
  | StableResult (tid : Nat) (isOk : Bool) (isForce : Bool) (data : List Nat)
  | RelayData (source : PeerId) (target : PeerId) (data : List Nat)
  | DirectIncoming
  | Close
deriving DecidableEq

/-- Endpoint-level control frames sent back on the transport endpoint
channel by the inbound router. -/
inductive EndpointMessage
  | Close
  | Handshake
  | DHTHelp (peers : List PeerId)
deriving DecidableEq

/-- Modelled from the spec: `delivery_split!(data, delivery_length)` —
every delivery receipt truncates its payload to the first
`delivery_length` bytes (macro in the types crate, not among the sources
at hand). -/
def deliverySplit (data : List Nat) (len : Nat) : List Nat :=
  data.take len

/-- Modelled from the spec: `KadValue(session_sender, stream_sender, peer)`
from the kad module.  Channel senders are `Nat` identifiers; the stream
sender is not consulted by any embedded branch and is dropped. -/
structure KadValue where
  chan : Nat
  peer : Peer
deriving DecidableEq

/-- Modelled from the spec: the peer registry `PeerList` (§4.3), holding
the Stable index (id, session channel, is-direct flag), the DHT index
(id, session channel) and the two blocklists.  The missing k-bucket bound
on the DHT is irrelevant to the embedded branches. -/
structure PeerList where
  stables : List (PeerId × Nat × Bool)
  dhts : List (PeerId × Nat)
  blockPeers : List PeerId
  blockAddrs : List Nat
deriving DecidableEq

/-- Session channel of an exact Stable entry, if any. -/
def PeerList.lookupStable (pl : PeerList) (id : PeerId) : Option Nat :=
  (pl.stables.find? (fun e => e.1 = id)).map (fun e => e.2.1)

/-- Session channel of an exact DHT entry, if any. -/
def PeerList.lookupDht (pl : PeerList) (id : PeerId) : Option Nat :=
  (pl.dhts.find? (fun e => e.1 = id)).map (fun e => e.2)

/-- Kademlia XOR distance between two ids, folded into one `Nat`
(byte-lexicographic, which matches comparing the XOR bytes in order). -/
def xorDist (a b : PeerId) : Nat :=
  (List.zipWith Nat.xor a.bytes b.bytes).foldl (fun acc x => acc * 256 + x) 0

/-- The DHT entry closest to `id` by XOR distance, if the DHT is
nonempty. -/
def PeerList.closestDht (pl : PeerList) (id : PeerId) : Option (PeerId × Nat) :=
  pl.dhts.foldl
    (fun best e =>
      match best with
      | none => some e
      | some b => if xorDist e.1 id < xorDist b.1 id then some e else some b)
    none

/-- Modelled from the spec: `PeerList::get(id)` (§4.3) — "returns the
entry for `id` if present, else returns the closest known DHT peer with
`is_exact = false`".  The Stable index is consulted before the DHT one. -/
def PeerList.get (pl : PeerList) (id : PeerId) : Option (Nat × Bool) :=
  match pl.lookupStable id with
  | some c => some (c, true)
  | none =>
    match pl.lookupDht id with
    | some c => some (c, true)
    | none => (pl.closestDht id).map (fun e => (e.2, false))

/-- Modelled from the spec: `PeerList::stable_all()` — all Stable entries
with their session channels and is-direct flags. -/
def PeerList.stable_all (pl : PeerList) : List (PeerId × Nat × Bool) :=
  pl.stables

/-- Modelled from the spec: `PeerList::all()` — every registry entry
(Stable ∪ DHT) with its session channel. -/
def PeerList.all (pl : PeerList) : List (PeerId × Nat) :=
  pl.stables.map (fun e => (e.1, e.2.1)) ++ pl.dhts

/-- Modelled from the spec: `PeerList::is_block_addr(addr)`. -/
def PeerList.is_block_addr (pl : PeerList) (addr : Nat) : Bool :=
  pl.blockAddrs.contains addr

/-- Modelled from the spec: `PeerList::is_block_peer(id)`. -/
def PeerList.is_block_peer (pl : PeerList) (id : PeerId) : Bool :=
  pl.blockPeers.contains id

/-- Modelled from the spec: `PeerList::is_relay(id)` — Some session
channel iff the peer is Stable-relay (Stable with `is_direct = false`). -/
def PeerList.is_relay (pl : PeerList) (id : PeerId) : Option Nat :=
  (pl.stables.find? (fun e => e.1 = id ∧ e.2.2 = false)).map (fun e => e.2.1)

/-- Modelled from the spec: `PeerList::add_dht(kad_value)` — returns
false (and leaves the registry unchanged) when the peer id is already
present anywhere or blocked; otherwise inserts a DHT entry. -/
def PeerList.add_dht (pl : PeerList) (id : PeerId) (chan : Nat) : PeerList × Bool :=
  if (pl.lookupStable id).isSome ∨ (pl.lookupDht id).isSome ∨ pl.is_block_peer id then
    (pl, false)
  else
    ({ pl with dhts := (id, chan) :: pl.dhts }, true)

/-- Modelled from the spec: `PeerList::help_dht(id)` — nearest DHT peers
to `id`, excluding `id` itself (the K bound is irrelevant here). -/
def PeerList.help_dht (pl : PeerList) (id : PeerId) : List PeerId :=
  (pl.dhts.filter (fun e => e.1 ≠ id)).map (fun e => e.1)

/-- Modelled from the spec: the `Buffer` (§4.4).  Pending-connect and
Pending-result map a peer id to the accumulated `(tid, data)` pairs
(`remove_connect`/`remove_result` return lists, so several pairs may
accumulate per id); Tmp maps a peer id to its `(KadValue, is_direct)`. -/
structure Buffer where
  connects : List (PeerId × Nat × List Nat)
  results : List (PeerId × Nat × List Nat)
  tmps : List (PeerId × KadValue × Bool)
deriving DecidableEq

/-- `Buffer::init()`. -/
def Buffer.init : Buffer := ⟨[], [], []⟩

/-- The pending-connect `(tid, data)` pairs recorded for a peer id. -/
def Buffer.connectsOf (b : Buffer) (id : PeerId) : List (Nat × List Nat) :=
  (b.connects.filter (fun e => e.1 = id)).map (fun e => e.2)

/-- The pending-result `(tid, data)` pairs recorded for a peer id. -/
def Buffer.resultsOf (b : Buffer) (id : PeerId) : List (Nat × List Nat) :=
  (b.results.filter (fun e => e.1 = id)).map (fun e => e.2)

/-- Modelled from the spec: `Buffer::add_connect(id, tid, data)` — records
the pair and returns true iff an entry for `id` already existed. -/
def Buffer.add_connect (b : Buffer) (id : PeerId) (tid : Nat) (data : List Nat) :
    Buffer × Bool :=
  ({ b with connects := b.connects ++ [(id, tid, data)] },
   b.connects.any (fun e => e.1 = id))

/-- Modelled from the spec: `Buffer::add_result(id, tid, data)`. -/
def Buffer.add_result (b : Buffer) (id : PeerId) (tid : Nat) (data : List Nat) :
    Buffer × Bool :=
  ({ b with results := b.results ++ [(id, tid, data)] },
   b.results.any (fun e => e.1 = id))

/-- Modelled from the spec: `Buffer::remove_connect(id)` — drains and
returns every pending-connect pair for `id`. -/
def Buffer.remove_connect (b : Buffer) (id : PeerId) :
    Buffer × List (Nat × List Nat) :=
  ({ b with connects := b.connects.filter (fun e => ¬ e.1 = id) },
   b.connectsOf id)

/-- Modelled from the spec: `Buffer::remove_result(id)`. -/
def Buffer.remove_result (b : Buffer) (id : PeerId) :
    Buffer × List (Nat × List Nat) :=
  ({ b with results := b.results.filter (fun e => ¬ e.1 = id) },
   b.resultsOf id)

/-- Modelled from the spec: `Buffer::add_tmp(id, kad_value, is_direct)` —
map insertion keyed by id. -/
def Buffer.add_tmp (b : Buffer) (id : PeerId) (kv : KadValue) (d : Bool) : Buffer :=
  { b with tmps := (id, kv, d) :: b.tmps.filter (fun e => ¬ e.1 = id) }

/-- Tmp entry for a peer id, if any. -/
def Buffer.lookupTmp (b : Buffer) (id : PeerId) : Option (KadValue × Bool) :=
  (b.tmps.find? (fun e => e.1 = id)).map (fun e => e.2)

/-- Modelled from the spec: `Buffer::remove_tmp(id)`. -/
def Buffer.remove_tmp (b : Buffer) (id : PeerId) :
    Buffer × Option (KadValue × Bool) :=
  ({ b with tmps := b.tmps.filter (fun e => ¬ e.1 = id) }, b.lookupTmp id)

/-- Modelled from the spec: `Buffer::get_tmp_session(id)` — peek the Tmp
session channel without removing. -/
def Buffer.get_tmp_session (b : Buffer) (id : PeerId) : Option Nat :=
  (b.lookupTmp id).map (fun e => e.1.chan)

/-- The shared state the dispatcher and the inbound router mutate: the
registry (`global.peer_list`) and the buffer (`global.buffer`). -/
structure DState where
  registry : PeerList
  buffer : Buffer
deriving DecidableEq

/-- One observable effect of a dispatcher or inbound-router step, in
program order: a message emitted upward to the application
(`global.out_send`), a message sent into a session inbox, a pending
buffer insertion, a spawned `direct_stable`/`relay_stable` task, an
endpoint control frame, a session-key completion call, or a spawned
session task. -/
inductive Effect
  | outSend (msg : ReceiveMessage)
  | sessionSend (chan : Nat) (msg : SessionMessage)
  | bufferAddConnect (id : PeerId) (tid : Nat) (data : List Nat)
  | bufferAddResult (id : PeerId) (tid : Nat) (data : List Nat)
  | spawnDirectStable (tid : Nat) (delivery : List Nat) (target : Peer)
  | spawnRelayStable (tid : Nat) (delivery : List Nat) (target : Peer) (chan : Nat)
  | endpointSend (msg : EndpointMessage)
  | completeKey
  | completeRemote
  | spawnSession (chan : Nat)
deriving DecidableEq

/-- The `SendMessage::StableConnect(tid, to, data)` branch of the
dispatcher task in `server.rs` (lines 262-338): self-addressed requests
fail immediately; an absent registry result fails; an exact entry gets
the session message; otherwise try the Tmp session, then record in the
pending-connect buffer (stopping if an entry already existed) and spawn
`direct_stable` or `relay_stable`. -/
def dispatchStableConnect (selfId : PeerId) (dl : Nat) (st : DState)
    (tid : Nat) (toPeer : Peer) (data : List Nat) : DState × List Effect :=
  if toPeer.id = selfId then
    (st, if tid ≠ 0 then
      [.outSend (.Delivery .StableConnect tid false (deliverySplit data dl))]
    else [])
  else
    match st.registry.get toPeer.id with
    | none =>
      (st, if tid ≠ 0 then
        [.outSend (.Delivery .StableConnect tid false (deliverySplit data dl))]
      else [])
    | some (chan, isIt) =>
      if isIt then
        (st, [.sessionSend chan (.StableConnect tid data)])
      else
        match st.buffer.get_tmp_session toPeer.id with
        | some tchan => (st, [.sessionSend tchan (.StableConnect tid data)])
        | none =>
          let res := st.buffer.add_connect toPeer.id tid data
          if res.2 then
            ({ st with buffer := res.1 }, [.bufferAddConnect toPeer.id tid data])
          else
            ({ st with buffer := res.1 },
             [.bufferAddConnect toPeer.id tid data,
              if toPeer.socketEffective then
                .spawnDirectStable tid (deliverySplit data dl) toPeer
              else
                .spawnRelayStable tid (deliverySplit data dl) toPeer chan])

/-- The `SendMessage::StableResult(tid, to, is_ok, is_force, data)` branch
of the dispatcher task in `server.rs` (lines 339-432): self-addressed
requests fail immediately; then the Tmp session is tried, then the
registry; an inexact result with `is_ok = false` is dropped without any
effect; with `is_ok = true` the Tmp session is re-checked and the request
is recorded in the pending-result buffer before spawning. -/
def dispatchStableResult (selfId : PeerId) (dl : Nat) (st : DState)
    (tid : Nat) (toPeer : Peer) (isOk isForce : Bool) (data : List Nat) :
    DState × List Effect :=
  if toPeer.id = selfId then
    (st, if tid ≠ 0 then
      [.outSend (.Delivery .StableResult tid false (deliverySplit data dl))]
    else [])
  else
    match st.buffer.get_tmp_session toPeer.id with
    | some tchan => (st, [.sessionSend tchan (.StableResult tid isOk isForce data)])
    | none =>
      match st.registry.get toPeer.id with
      | none =>
        (st, if tid ≠ 0 then
          [.outSend (.Delivery .StableResult tid false (deliverySplit data dl))]
        else [])
      | some (chan, isIt) =>
        if isIt then
          (st, [.sessionSend chan (.StableResult tid isOk isForce data)])
        else
          if ¬ isOk then (st, [])
          else
            match st.buffer.get_tmp_session toPeer.id with
            | some tchan =>
              (st, [.sessionSend tchan (.StableResult tid isOk isForce data)])
            | none =>
              let res := st.buffer.add_result toPeer.id tid data
              if res.2 then
                ({ st with buffer := res.1 }, [.bufferAddResult toPeer.id tid data])
              else
                ({ st with buffer := res.1 },
                 [.bufferAddResult toPeer.id tid data,
                  if toPeer.socketEffective then
                    .spawnDirectStable tid (deliverySplit data dl) toPeer
                  else
                    .spawnRelayStable tid (deliverySplit data dl) toPeer chan])

/-- The `SendMessage::StableDisconnect(pid)` branch of the dispatcher task
in `server.rs` (lines 433-440): send `Close` to the session iff the
registry lookup returns an exact entry. -/
def dispatchStableDisconnect (st : DState) (pid : PeerId) : DState × List Effect :=
  match st.registry.get pid with
  | some (chan, isIt) =>
    if isIt then (st, [.sessionSend chan .Close]) else (st, [])
  | none => (st, [])

/-- The `SendMessage::Data(tid, to, data)` branch of the dispatcher task
in `server.rs` (lines 460-499): self-addressed data loops back (success
delivery first, then the data); an exact entry gets `Session::Data`; an
inexact entry gets `Session::RelayData` (without the tid); absence fails
the delivery. -/
def dispatchData (selfId : PeerId) (dl : Nat) (st : DState)
    (tid : Nat) (toId : PeerId) (data : List Nat) : DState × List Effect :=
  if toId = selfId then
    (st,
     (if tid ≠ 0 then
        [.outSend (.Delivery .Data tid true (deliverySplit data dl))]
      else []) ++ [.outSend (.Data toId data)])
  else
    match st.registry.get toId with
    | some (chan, isIt) =>
      if isIt then
        (st, [.sessionSend chan (.Data tid data)])
      else
        (st, [.sessionSend chan (.RelayData selfId toId data)])
    | none =>
      (st, if tid ≠ 0 then
        [.outSend (.Delivery .Data tid false (deliverySplit data dl))]
      else [])

/-- `Broadcast` kinds from the types crate. -/
inductive BroadcastKind
  | Gossip
  | StableAll
deriving DecidableEq

/-- The `SendMessage::Broadcast(broadcast, data)` branch of the dispatcher
task in `server.rs` (lines 501-513): `StableAll` fans `Data(0, data)` out
to every Stable session; `Gossip` fans it out to every registry entry. -/
def dispatchBroadcast (st : DState) (kind : BroadcastKind) (data : List Nat) :
    DState × List Effect :=
  match kind with
  | .StableAll =>
    (st, st.registry.stable_all.map (fun e => .sessionSend e.2.1 (.Data 0 data)))
  | .Gossip =>
    (st, st.registry.all.map (fun e => .sessionSend e.2 (.Data 0 data)))

/-- One incoming `TransportRecvMessage` as the inbound router sees it.
`remoteId` is `remote_key.peer_id()`; the session-key computations of the
missing keys module are oracles carried by the message: `isSelf = some ok`
means this stream answers a locally initiated connect and `ok` is the
outcome of `session_key.complete`, `isSelf = none` is a passive accept
whose `complete_remote` outcome is `completeRemoteOk`. -/
structure InMsg where
  addr : Nat
  remoteId : PeerId
  remotePeer : Peer
  isSelf : Option Bool
  completeRemoteOk : Bool
deriving DecidableEq

/-- `nat(addr, remote_peer)` from the hole-punching module, per the spec:
if the peer descriptor's socket differs from the observed address,
substitute the observed address. -/
def natRewrite (addr : Nat) (p : Peer) : Peer :=
  if p.socket ≠ addr then { p with socket := addr } else p

/-- The `TransportRecvMessage` branch of the inbound task in `server.rs`
(lines 145-245), in program order: (1) close on a blocked address;
(2) derive `remote_id` and NAT-rewrite; (3) close when the remote is self
or a blocked peer; (4) complete the session key (active `complete` or
passive `complete_remote` + `Handshake` reply), closing on failure;
(5) divert to the existing Relay session via `DirectIncoming`;
(6) `add_dht`, closing when the peer was already present; (7) reply with
DHT help; (8) spawn the session task.  `freshChan` stands for the fresh
session channel allocated by `new_session_channel`. -/
def inboundRouter (selfId : PeerId) (st : DState) (m : InMsg) (freshChan : Nat) :
    DState × List Effect :=
  if st.registry.is_block_addr m.addr then
    (st, [.endpointSend .Close])
  else
    let remotePeer := natRewrite m.addr m.remotePeer
    if m.remoteId = selfId ∨ st.registry.is_block_peer m.remoteId then
      (st, [.endpointSend .Close])
    else
      let keyFx : List Effect :=
        match m.isSelf with
        | some _ => [.completeKey]
        | none => [.completeRemote]
      let keyOk : Bool :=
        match m.isSelf with
        | some ok => ok
        | none => m.completeRemoteOk
      if ¬ keyOk then
        (st, keyFx ++ [.endpointSend .Close])
      else
        let hsFx : List Effect :=
          match m.isSelf with
          | some _ => []
          | none => [.endpointSend .Handshake]
        match st.registry.is_relay m.remoteId with
        | some chan =>
          (st, keyFx ++ hsFx ++ [.sessionSend chan .DirectIncoming])
        | none =>
          let res := st.registry.add_dht remotePeer.id freshChan
          if ¬ res.2 then
            (st, keyFx ++ hsFx ++ [.endpointSend .Close])
          else
            ({ st with registry := res.1 },
             keyFx ++ hsFx ++
               [.endpointSend (.DHTHelp (st.registry.help_dht m.remoteId)),
                .spawnSession freshChan])

/-- `Global::add_tmp` from `global.rs` (lines 113-119): under one buffer
write lock, drain the pending-connect pairs for the peer and insert the
Tmp entry, returning the drained pairs. -/
def Global.add_tmp (b : Buffer) (p : PeerId) (k : KadValue) (d : Bool) :
    Buffer × List (Nat × List Nat) :=
  let r := b.remove_connect p
  (r.1.add_tmp p k d, r.2)

/-- `Global::add_all_tmp` from `global.rs` (lines 121-134): under one
buffer write lock, drain both the pending-connect and pending-result
pairs for the peer and insert the Tmp entry, returning both drained
lists. -/
def Global.add_all_tmp (b : Buffer) (p : PeerId) (k : KadValue) (d : Bool) :
    Buffer × List (Nat × List Nat) × List (Nat × List Nat) :=
  let rc := b.remove_connect p
  let rr := rc.1.remove_result p
  (rr.1.add_tmp p k d, rc.2, rr.2)

/-- Sleep duration in seconds guarding the `Check` branch of the inbound
task's select race (`server.rs` lines 132-136): the network-health
timer. -/
def checkTimerSeconds : Nat := 10

/-- Sleep duration in seconds guarding the `Clear` branch of the inbound
task's select race (`server.rs` lines 137-141), whose comment announces a
60-second buffer sweep. -/
def clearTimerSeconds : Nat := 10

/-- How far a single effect goes toward settling the delivery obligation
of transaction `tid`: an immediate `Delivery` receipt for `tid` counts,
as does handing the tid-carrying request to a session inbox or recording
it in the pending buffer (whose sweep or drain must produce the receipt).
`RelayData` drops the tid and the spawned connect tasks report through
the buffer entry, so neither counts. -/
def settlesFx (tid : Nat) : Effect → Nat
  | .outSend (.Delivery _ t _ _) => if t = tid then 1 else 0
  | .sessionSend _ (.StableConnect t _) => if t = tid then 1 else 0
  | .sessionSend _ (.StableResult t _ _ _) => if t = tid then 1 else 0
  | .sessionSend _ (.Data t _) => if t = tid then 1 else 0
  | .bufferAddConnect _ t _ => if t = tid then 1 else 0
  | .bufferAddResult _ t _ => if t = tid then 1 else 0
  | _ => 0

/-- Total settlement count of an effect trace for transaction `tid`. -/
def settlesSum (tid : Nat) (fx : List Effect) : Nat :=
  (fx.map (settlesFx tid)).sum

/-- The dispatcher branch on which a `StableResult` is silently dropped:
the target is not self, has no Tmp session, the registry lookup returns
only an inexact closest match, and `is_ok = false`. -/
def srDropped (selfId : PeerId) (st : DState) (toPeer : Peer) (isOk : Bool) : Bool :=
  !(toPeer.id == selfId) && (st.buffer.get_tmp_session toPeer.id).isNone &&
    (match st.registry.get toPeer.id with
     | some (_, false) => true
     | _ => false) && !isOk

/-- The dispatcher branch on which a `Data` request is relayed without its
transaction id: the target is not self and the registry lookup returns
only an inexact closest match. -/
def dataRelayed (selfId : PeerId) (st : DState) (toId : PeerId) : Bool :=
  !(toId == selfId) &&
    (match st.registry.get toId with
     | some (_, false) => true
     | _ => false)

/-- Session channel of an exact registry entry (Stable first, then DHT),
ignoring the closest-match fallback of `PeerList.get`. -/
def PeerList.exactChan (pl : PeerList) (id : PeerId) : Option Nat :=
  match pl.lookupStable id with
  | some c => some c
  | none => pl.lookupDht id

/-- Whether an effect is a `Delivery` receipt emitted upward. -/
def Effect.isDeliveryOut : Effect → Bool
  | .outSend (.Delivery _ _ _ _) => true
  | _ => false

/-- Whether an effect is a session-key completion call (`complete` or
`complete_remote`). -/
def Effect.isKeyCompletion : Effect → Bool
  | .completeKey => true
  | .completeRemote => true
  | _ => false

/-- Whether an effect spawns a session task. -/
def Effect.isSpawnSession : Effect → Bool
  | .spawnSession _ => true
  | _ => false

/-- Claim C3: the code's `Clear` branch of the inbound select race is
guarded by a 10-second sleep, not the 60-second sweep cadence its own
comment announces and the spec mandates; the `Check` branch uses the same
10 seconds, so the two cadences are not independent. -/
theorem c3_clear_timer_is_ten :
    clearTimerSeconds = 10 ∧ clearTimerSeconds ≠ 60 ∧
      clearTimerSeconds = checkTimerSeconds := by
  refine ⟨rfl, ?_, rfl⟩
  decide

/-- Claim C6: a `Data` request addressed to the local peer id loops back:
the success `Delivery` (for `tid ≠ 0`, with the payload truncated to
`delivery_length`) is emitted first, then the `Data` itself; the shared
state is unchanged and the emitted effects do not depend on it, so
neither the registry nor any session is consulted. -/
theorem c6_data_self_loopback (selfId : PeerId) (dl : Nat) (st st' : DState)
    (tid : Nat) (data : List Nat) :
    dispatchData selfId dl st tid selfId data =
      (st,
       (if tid ≠ 0 then
          [Effect.outSend (.Delivery .Data tid true (deliverySplit data dl))]
        else []) ++ [Effect.outSend (.Data selfId data)]) ∧
    (dispatchData selfId dl st tid selfId data).2 =
      (dispatchData selfId dl st' tid selfId data).2 := by
  constructor <;> simp [dispatchData]

/-- Claim C7: a `StableConnect` whose target id equals the local peer id
immediately emits a failed `Delivery` (for `tid ≠ 0`; nothing for
`tid = 0`) and returns: the shared state is unchanged and the emitted
effects do not depend on it, so neither the registry, nor the buffer, nor
any session is touched. -/
theorem c7_stable_connect_self (selfId : PeerId) (dl sock : Nat) (eff : Bool)
    (st st' : DState) (tid : Nat) (data : List Nat) :
    dispatchStableConnect selfId dl st tid ⟨selfId, sock, eff⟩ data =
      (st,
       if tid ≠ 0 then
         [Effect.outSend (.Delivery .StableConnect tid false (deliverySplit data dl))]
       else []) ∧
    (dispatchStableConnect selfId dl st tid ⟨selfId, sock, eff⟩ data).2 =
      (dispatchStableConnect selfId dl st' tid ⟨selfId, sock, eff⟩ data).2 := by
  constructor <;> simp [dispatchStableConnect]

/-- Claim C5: a `Broadcast(StableAll)` sends `Data(0, data)` to exactly
the session channels of the Stable entries (hence to no DHT-only peer);
a `Broadcast(Gossip)` sends it to every registry entry (Stable then
DHT); and no broadcast of either kind produces any `Delivery` receipt or
changes the state. -/
theorem c5_broadcast_fanout (st : DState) (data : List Nat) :
    dispatchBroadcast st .StableAll data =
      (st, st.registry.stables.map (fun e => .sessionSend e.2.1 (.Data 0 data))) ∧
    dispatchBroadcast st .Gossip data =
      (st, (st.registry.stables.map (fun e => (e.1, e.2.1)) ++ st.registry.dhts).map
        (fun e => .sessionSend e.2 (.Data 0 data))) ∧
    (∀ kind : BroadcastKind,
      ((dispatchBroadcast st kind data).2.countP Effect.isDeliveryOut) = 0) := by
  refine ⟨rfl, rfl, ?_⟩
  intro kind
  cases kind <;>
    simp [dispatchBroadcast, PeerList.stable_all, PeerList.all,
      List.countP_eq_zero, Effect.isDeliveryOut]

/-- Filtering for a key right after filtering it away yields nothing. -/
theorem filter_eq_after_filter_ne {α β : Type} [DecidableEq α]
    (l : List (α × β)) (a : α) :
    ((l.filter (fun e => ¬ e.1 = a)).filter (fun e => e.1 = a)) = [] := by
  induction l with
  | nil => rfl
  | cons x xs ih =>
    by_cases h : x.1 = a <;> simp [h, ih]

/-- Claim C10: `Global::add_tmp` drains and returns every pending-connect
pair for the peer while inserting its Tmp entry, and `Global::add_all_tmp`
does the same for both pending maps; right after either call no
pending-connect (resp. pending-result) pair for that peer remains, and
the Tmp entry is present. -/
theorem c10_add_tmp_drains (b : Buffer) (p : PeerId) (k : KadValue) (d : Bool) :
    (Global.add_tmp b p k d).2 = b.connectsOf p ∧
    ((Global.add_tmp b p k d).1).connectsOf p = [] ∧
    ((Global.add_tmp b p k d).1).lookupTmp p = some (k, d) ∧
    (Global.add_all_tmp b p k d).2.1 = b.connectsOf p ∧
    (Global.add_all_tmp b p k d).2.2 = b.resultsOf p ∧
    ((Global.add_all_tmp b p k d).1).connectsOf p = [] ∧
    ((Global.add_all_tmp b p k d).1).resultsOf p = [] ∧
    ((Global.add_all_tmp b p k d).1).lookupTmp p = some (k, d) := by
  refine ⟨rfl, ?_, ?_, rfl, rfl, ?_, ?_, ?_⟩ <;>
    simp [Global.add_tmp, Global.add_all_tmp, Buffer.add_tmp,
      Buffer.remove_connect, Buffer.remove_result, Buffer.connectsOf,
      Buffer.resultsOf, Buffer.lookupTmp, filter_eq_after_filter_ne]

/-- Claim C2 (amended): the `StableDisconnect` branch sends `Close` to the
session channel of the exact registry entry for `id` (Stable first, then
DHT) and sends nothing when the registry is empty of `id` or only a
closest inexact match exists. -/
theorem c2_close_iff_exact_entry (st : DState) (pid : PeerId) :
    dispatchStableDisconnect st pid =
      (st,
       match st.registry.exactChan pid with
       | some c => [Effect.sessionSend c .Close]
       | none => []) := by
  unfold dispatchStableDisconnect PeerList.get PeerList.exactChan
  rcases hs : st.registry.lookupStable pid with _ | c
  · rcases hd : st.registry.lookupDht pid with _ | c
    · rcases hc : st.registry.closestDht pid with _ | e <;> simp [hs, hd, hc]
    · simp [hs, hd]
  · simp [hs]

/-- Claim C2 counterexample: with a registry whose only knowledge of the
peer is a DHT entry (no Stable entry), `StableDisconnect` does send
`Close` to that DHT session, contradicting "no Close is sent in the
DHT-only state". -/
theorem c2_counterexample :
    (PeerList.lookupStable ⟨[], [(⟨List.replicate 32 1⟩, 7)], [], []⟩
        ⟨List.replicate 32 1⟩ = none) ∧
    (PeerList.lookupDht ⟨[], [(⟨List.replicate 32 1⟩, 7)], [], []⟩
        ⟨List.replicate 32 1⟩ = some 7) ∧
    dispatchStableDisconnect
        ⟨⟨[], [(⟨List.replicate 32 1⟩, 7)], [], []⟩, Buffer.init⟩
        ⟨List.replicate 32 1⟩ =
      (⟨⟨[], [(⟨List.replicate 32 1⟩, 7)], [], []⟩, Buffer.init⟩,
       [Effect.sessionSend 7 .Close]) := by
  refine ⟨rfl, rfl, ?_⟩
  decide

set_option maxRecDepth 4000 in
set_option maxHeartbeats 1000000 in
/-- `u8::from_str_radix` inverts the `02x?` rendering of any byte. -/
theorem parsePair_hexByte : ∀ b < 256,
    parsePair (hexNibble (b / 16)) (hexNibble (b % 16)) = some b := by
  decide

/-- Rendering a byte list in hex and reparsing it pairwise recovers it. -/
theorem parsePairs_flatMap_hexByte (l : List Nat) (h : ∀ b ∈ l, b < 256) :
    parsePairs (l.flatMap hexByte) = some l := by
  induction l with
  | nil => rfl
  | cons b bs ih =>
    have hb : b < 256 := h b (by simp)
    have hrest : ∀ x ∈ bs, x < 256 := fun x hx => h x (by simp [hx])
    show parsePairs
        (hexNibble (b / 16) :: hexNibble (b % 16) :: bs.flatMap hexByte) =
      some (b :: bs)
    simp only [parsePairs]
    rw [parsePair_hexByte b hb, ih hrest]

/-- The hex rendering of a byte list has twice its length. -/
theorem length_flatMap_hexByte (l : List Nat) :
    (l.flatMap hexByte).length = 2 * l.length := by
  induction l with
  | nil => rfl
  | cons b bs ih => simp [hexByte, ih]; omega

/-- Claim C9: both `PeerId` codecs round-trip — `from_hex ∘ to_hex` and
`from_bytes ∘ as_bytes` recover the identity exactly on every
well-formed 32-byte peer id. -/
theorem c9_roundtrip (p : PeerId) (h : p.wf) :
    PeerId.from_hex p.to_hex = .ok p ∧ PeerId.from_bytes p.as_bytes = .ok p := by
  obtain ⟨hlen, hbts⟩ := h
  constructor
  · unfold PeerId.from_hex PeerId.to_hex
    have hl : (p.bytes.flatMap hexByte).length = 64 := by
      rw [length_flatMap_hexByte, hlen]
    rw [if_neg (by omega)]
    rw [parsePairs_flatMap_hexByte p.bytes hbts]
  · unfold PeerId.from_bytes PeerId.as_bytes
    rw [if_neg (by omega)]

/-- Witness for C9 at the all-zero peer id. -/
theorem c9_roundtrip_witness :
    (PeerId.mk (List.replicate 32 0)).wf ∧
    (PeerId.from_hex (PeerId.to_hex ⟨List.replicate 32 0⟩) =
        .ok ⟨List.replicate 32 0⟩ ∧
      PeerId.from_bytes (PeerId.as_bytes ⟨List.replicate 32 0⟩) =
        .ok ⟨List.replicate 32 0⟩) :=
  ⟨by decide, c9_roundtrip ⟨List.replicate 32 0⟩ (by decide)⟩

/-- Claim C8 counterexample: `from_hex` succeeds on the 64-character
input made of 32 copies of the pair `+1`, although `+` is not a
hexadecimal character — `u8::from_str_radix` accepts an optional leading
`+` sign in each pair. -/
theorem c8_counterexample :
    PeerId.from_hex ((List.replicate 32 ['+', '1']).flatten) =
      .ok ⟨List.replicate 32 1⟩ ∧
    ((List.replicate 32 ['+', '1']).flatten).length = 64 ∧
    hexDigitVal '+' = none := by
  refine ⟨rfl, rfl, rfl⟩

/-- Every pair at an even offset of a successfully parsed string is
accepted by `u8::from_str_radix`. -/
theorem parsePairs_valid_at (s : List Char) (bs : List Nat)
    (h : parsePairs s = some bs) (i : Nat) (c1 c2 : Char)
    (h1 : s.get? (2 * i) = some c1) (h2 : s.get? (2 * i + 1) = some c2) :
    (parsePair c1 c2).isSome = true := by
  induction i generalizing s bs with
  | zero =>
    cases s with
    | nil => simp at h1
    | cons a t =>
      cases t with
      | nil => simp at h2
      | cons b r =>
        have ha : a = c1 := by simpa using h1
        have hb : b = c2 := by simpa using h2
        subst ha; subst hb
        unfold parsePairs at h
        rcases hp : parsePair a b with _ | v
        · rw [hp] at h; simp at h
        · simp [hp]
  | succ n ih =>
    cases s with
    | nil => simp at h1
    | cons a t =>
      cases t with
      | nil =>
        have e : 2 * (n + 1) = 2 * n + 1 + 1 := by ring
        rw [e] at h1
        simp at h1
      | cons b r =>
        unfold parsePairs at h
        rcases hp : parsePair a b with _ | v
        · rw [hp] at h; simp at h
        · rw [hp] at h
          rcases hr : parsePairs r with _ | bs'
          · rw [hr] at h; simp at h
          · have e1 : 2 * (n + 1) = 2 * n + 1 + 1 := by ring
            have e2 : 2 * (n + 1) + 1 = (2 * n + 1) + 1 + 1 := by ring
            rw [e1] at h1
            rw [e2] at h2
            simp only [List.get?_cons_succ] at h1 h2
            exact ih r bs' hr h1 h2

/-- Claim C8 (amended): `from_hex` errors on every input whose length is
not 64, and on every input holding, at an even offset, a character pair
rejected by `u8::from_str_radix` with radix 16 (one that is neither two
hex digits nor a `+` sign followed by a hex digit); it never succeeds on
such inputs. -/
theorem c8_from_hex_rejects (s : List Char) :
    (s.length ≠ 64 → isErr (PeerId.from_hex s) = true) ∧
    (∀ i c1 c2, s.get? (2 * i) = some c1 → s.get? (2 * i + 1) = some c2 →
      parsePair c1 c2 = none → isErr (PeerId.from_hex s) = true) := by
  constructor
  · intro h
    unfold PeerId.from_hex
    rw [if_pos h]
    rfl
  · intro i c1 c2 h1 h2 hp
    unfold PeerId.from_hex
    by_cases hl : s.length ≠ 64
    · rw [if_pos hl]; rfl
    · rw [if_neg hl]
      rcases hps : parsePairs s with _ | bs
      · rfl
      · exfalso
        have hv := parsePairs_valid_at s bs hps i c1 c2 h1 h2
        rw [hp] at hv
        simp at hv

/-- Witness for C8 (amended): a 63-character input and a 64-character
input whose first pair is `zz` are both rejected. -/
theorem c8_from_hex_rejects_witness :
    ((List.replicate 63 'a').length ≠ 64 ∧
      isErr (PeerId.from_hex (List.replicate 63 'a')) = true) ∧
    ((List.replicate 64 'z').get? 0 = some 'z' ∧
      (List.replicate 64 'z').get? 1 = some 'z' ∧
      parsePair 'z' 'z' = none ∧
      isErr (PeerId.from_hex (List.replicate 64 'z')) = true) :=
  ⟨⟨by decide, (c8_from_hex_rejects _).1 (by decide)⟩,
   ⟨rfl, rfl, rfl, (c8_from_hex_rejects _).2 0 'z' 'z' rfl rfl rfl⟩⟩

/-- Claim C4: when the source address is on the IP blocklist, or the
derived remote id is self or on the peer blocklist, the inbound router
sends exactly `Close` to the endpoint and returns: the trace holds no
session-key completion (`complete` or `complete_remote`), no spawned
session, and the shared state is unchanged. -/
theorem c4_blocked_refused (selfId : PeerId) (st : DState) (m : InMsg)
    (freshChan : Nat)
    (h : st.registry.is_block_addr m.addr = true ∨ m.remoteId = selfId ∨
      st.registry.is_block_peer m.remoteId = true) :
    inboundRouter selfId st m freshChan = (st, [.endpointSend .Close]) ∧
    (inboundRouter selfId st m freshChan).2.countP Effect.isKeyCompletion = 0 ∧
    (inboundRouter selfId st m freshChan).2.countP Effect.isSpawnSession = 0 := by
  have hmain : inboundRouter selfId st m freshChan = (st, [.endpointSend .Close]) := by
    unfold inboundRouter
    by_cases hb : st.registry.is_block_addr m.addr = true
    · simp [hb]
    · rcases h with h | h | h
      · exact absurd h hb
      · simp [hb, h]
      · simp [hb, h]
  refine ⟨hmain, ?_, ?_⟩ <;>
    rw [hmain] <;> rfl

/-- Witness for C4: a message whose remote id is on the peer blocklist is
closed with no key completion. -/
theorem c4_blocked_refused_witness :
    (PeerList.is_block_peer ⟨[], [], [⟨List.replicate 32 3⟩], []⟩
        ⟨List.replicate 32 3⟩ = true) ∧
    (inboundRouter ⟨List.replicate 32 0⟩
        ⟨⟨[], [], [⟨List.replicate 32 3⟩], []⟩, Buffer.init⟩
        ⟨1, ⟨List.replicate 32 3⟩, ⟨⟨List.replicate 32 3⟩, 9, true⟩, none, true⟩ 4 =
      (⟨⟨[], [], [⟨List.replicate 32 3⟩], []⟩, Buffer.init⟩,
       [.endpointSend .Close]) ∧
      (inboundRouter ⟨List.replicate 32 0⟩
        ⟨⟨[], [], [⟨List.replicate 32 3⟩], []⟩, Buffer.init⟩
        ⟨1, ⟨List.replicate 32 3⟩, ⟨⟨List.replicate 32 3⟩, 9, true⟩, none, true⟩ 4).2.countP
          Effect.isKeyCompletion = 0 ∧
      (inboundRouter ⟨List.replicate 32 0⟩
        ⟨⟨[], [], [⟨List.replicate 32 3⟩], []⟩, Buffer.init⟩
        ⟨1, ⟨List.replicate 32 3⟩, ⟨⟨List.replicate 32 3⟩, 9, true⟩, none, true⟩ 4).2.countP
          Effect.isSpawnSession = 0) :=
  ⟨by decide,
   c4_blocked_refused ⟨List.replicate 32 0⟩
     ⟨⟨[], [], [⟨List.replicate 32 3⟩], []⟩, Buffer.init⟩
     ⟨1, ⟨List.replicate 32 3⟩, ⟨⟨List.replicate 32 3⟩, 9, true⟩, none, true⟩ 4
     (Or.inr (Or.inr (by decide)))⟩

/-- Claim C1 counterexample: a `StableResult` with `is_ok = false` whose
target is neither self, nor in the Tmp buffer, nor an exact registry
entry (only an inexact closest DHT match exists) is dropped by the
dispatcher with no effect at all: no `Delivery` is emitted, nothing is
sent to any session and nothing is recorded in the pending buffer, so
the nonzero transaction id 9 can never receive a receipt. -/
theorem c1_counterexample :
    dispatchStableResult ⟨List.replicate 32 0⟩ 8
        ⟨⟨[], [(⟨List.replicate 32 2⟩, 5)], [], []⟩, Buffer.init⟩
        9 ⟨⟨List.replicate 32 1⟩, 0, false⟩ false false [0] =
      (⟨⟨[], [(⟨List.replicate 32 2⟩, 5)], [], []⟩, Buffer.init⟩, []) ∧
    srDropped ⟨List.replicate 32 0⟩
        ⟨⟨[], [(⟨List.replicate 32 2⟩, 5)], [], []⟩, Buffer.init⟩
        ⟨⟨List.replicate 32 1⟩, 0, false⟩ false = true ∧
    (9 : Nat) ≠ 0 := by
  refine ⟨rfl, rfl, by decide⟩

/-- Claim C1 (amended): for every outbound `StableConnect`,
`StableResult` or `Data` request with nonzero tid, the dispatcher step
settles the delivery obligation exactly once — it either emits the
`Delivery` receipt at once or hands the tid to exactly one responsible
continuation (a session inbox carrying the tid, or a pending-buffer
entry whose drain or sweep must produce the receipt) — except in two
branches that settle zero times and so never produce a receipt: a
`StableResult` with `is_ok = false` whose target has only an inexact
match (dropped silently), and a `Data` whose target has only an inexact
match (relayed as `RelayData` without its tid). -/
theorem c1_settles_exactly_once (selfId : PeerId) (dl : Nat) (st : DState)
    (tid : Nat) (toPeer : Peer) (isOk isForce : Bool) (data : List Nat)
    (h : tid ≠ 0) :
    settlesSum tid (dispatchStableConnect selfId dl st tid toPeer data).2 = 1 ∧
    settlesSum tid
      (dispatchStableResult selfId dl st tid toPeer isOk isForce data).2 =
      (if srDropped selfId st toPeer isOk then 0 else 1) ∧
    settlesSum tid (dispatchData selfId dl st tid toPeer.id data).2 =
      (if dataRelayed selfId st toPeer.id then 0 else 1) := by
  refine ⟨?_, ?_, ?_⟩
  · unfold dispatchStableConnect
    by_cases h1 : toPeer.id = selfId
    · simp [h1, h, settlesSum, settlesFx]
    · rcases hg : st.registry.get toPeer.id with _ | ⟨chan, isIt⟩
      · simp [h1, hg, h, settlesSum, settlesFx]
      · cases isIt with
        | true => simp [h1, hg, settlesSum, settlesFx]
        | false =>
          rcases ht : st.buffer.get_tmp_session toPeer.id with _ | tchan
          · cases hr : (st.buffer.add_connect toPeer.id tid data).2 with
            | true => simp [h1, hg, ht, hr, settlesSum, settlesFx]
            | false =>
              by_cases hs : toPeer.socketEffective = true
              · simp [h1, hg, ht, hr, hs, settlesSum, settlesFx]
              · simp [h1, hg, ht, hr, hs, settlesSum, settlesFx]
          · simp [h1, hg, ht, settlesSum, settlesFx]
  · unfold dispatchStableResult
    by_cases h1 : toPeer.id = selfId
    · simp [h1, h, srDropped, settlesSum, settlesFx]
    · rcases ht : st.buffer.get_tmp_session toPeer.id with _ | tchan
      · rcases hg : st.registry.get toPeer.id with _ | ⟨chan, isIt⟩
        · simp [h1, ht, hg, h, srDropped, settlesSum, settlesFx]
        · cases isIt with
          | true => simp [h1, ht, hg, srDropped, settlesSum, settlesFx]
          | false =>
            cases isOk with
            | false => simp [h1, ht, hg, srDropped, settlesSum, settlesFx]
            | true =>
              cases hr : (st.buffer.add_result toPeer.id tid data).2 with
              | true => simp [h1, ht, hg, hr, srDropped, settlesSum, settlesFx]
              | false =>
                by_cases hs : toPeer.socketEffective = true
                · simp [h1, ht, hg, hr, hs, srDropped, settlesSum, settlesFx]
                · simp [h1, ht, hg, hr, hs, srDropped, settlesSum, settlesFx]
      · simp [h1, ht, srDropped, settlesSum, settlesFx]
  · unfold dispatchData
    by_cases h1 : toPeer.id = selfId
    · simp [h1, h, dataRelayed, settlesSum, settlesFx]
    · rcases hg : st.registry.get toPeer.id with _ | ⟨chan, isIt⟩
      · simp [h1, hg, h, dataRelayed, settlesSum, settlesFx]
      · cases isIt with
        | true => simp [h1, hg, dataRelayed, settlesSum, settlesFx]
        | false => simp [h1, hg, dataRelayed, settlesSum, settlesFx]

/-- Witness for C1 (amended) with tid 1 against an empty registry: all
three request kinds settle exactly once (here by immediate failed or
successful deliveries). -/
theorem c1_settles_witness :
    (1 : Nat) ≠ 0 ∧
    (settlesSum 1 (dispatchStableConnect ⟨List.replicate 32 0⟩ 8
        ⟨⟨[], [], [], []⟩, Buffer.init⟩ 1
        ⟨⟨List.replicate 32 1⟩, 0, true⟩ [2, 3]).2 = 1 ∧
      settlesSum 1 (dispatchStableResult ⟨List.replicate 32 0⟩ 8
        ⟨⟨[], [], [], []⟩, Buffer.init⟩ 1
        ⟨⟨List.replicate 32 1⟩, 0, true⟩ true false [2, 3]).2 =
        (if srDropped ⟨List.replicate 32 0⟩ ⟨⟨[], [], [], []⟩, Buffer.init⟩
            ⟨⟨List.replicate 32 1⟩, 0, true⟩ true then 0 else 1) ∧
      settlesSum 1 (dispatchData ⟨List.replicate 32 0⟩ 8
        ⟨⟨[], [], [], []⟩, Buffer.init⟩ 1
        (Peer.mk ⟨List.replicate 32 1⟩ 0 true).id [2, 3]).2 =
        (if dataRelayed ⟨List.replicate 32 0⟩ ⟨⟨[], [], [], []⟩, Buffer.init⟩
            (Peer.mk ⟨List.replicate 32 1⟩ 0 true).id then 0 else 1)) :=
  ⟨by decide,
   c1_settles_exactly_once ⟨List.replicate 32 0⟩ 8
     ⟨⟨[], [], [], []⟩, Buffer.init⟩ 1
     ⟨⟨List.replicate 32 1⟩, 0, true⟩ true false [2, 3] (by decide)⟩

end Chamomile
